import Mathlib

/-!
A shallow embedding of the chunked map-reduce pipelines of the two Data Cube UI
applications, `apps/fractional_cover/tasks.py` (fractional cover) and
`apps/tsm/tasks.py` (total suspended matter / water quality), together with
theorems settling the specification claims about them.

Numeric pixel values are modelled as rationals (`ℚ`), pixel rasters as functions
`ℕ → ℚ` (or `ℕ → Option ℚ` where non-finite values matter), and Python strings as
lists of character code points.
-/

namespace DataCubeUi

/-! ### Paths and the reducer input lists

`processing_task` writes its artifact to
`os.path.join(task.get_temp_path(), chunk_id + ".nc")` with
`chunk_id = str(geo_chunk_id) + "_" + str(time_chunk_id)`, and the TSM
`recombine_geographic_chunks` writes to
`"recombined_geo_{}.nc".format(time_chunk_id)` under the same temp directory.
`recombine_time_chunks` in both pipelines sorts its input entries with
`sorted(chunks, key=lambda x: x[0])`, i.e. by the path string. -/

/-- A Python string as its list of character code points (Python compares strings
lexicographically by code point). -/
abbrev PathStr := List ℕ

/-- Fuel-bounded helper for `decimalCodes`. -/
def digitsAux : ℕ → ℕ → List ℕ
  | 0, _ => []
  | fuel + 1, n => if n < 10 then [48 + n] else digitsAux fuel (n / 10) ++ [48 + n % 10]

/-- The decimal digit character codes of `n`, most significant digit first: the
embedding of Python `str(n)` for a natural number. -/
def decimalCodes (n : ℕ) : List ℕ := digitsAux (n + 1) n

/-- The artifact path written by `processing_task`:
`temp ++ "/" ++ str(geo_chunk_id) ++ "_" ++ str(time_chunk_id) ++ ".nc"`
(code 47 is `/`, 95 is `_`, and 46,110,99 spell `.nc`). -/
def fcChunkPath (temp : PathStr) (geoChunkId timeChunkId : ℕ) : PathStr :=
  temp ++ [47] ++ decimalCodes geoChunkId ++ [95] ++ decimalCodes timeChunkId ++ [46, 110, 99]

/-- The artifact path written by the TSM `recombine_geographic_chunks`:
`temp ++ "/recombined_geo_" ++ str(time_chunk_id) ++ ".nc"`
(the code list spells `recombined_geo_`). -/
def tsmRecombinedGeoPath (temp : PathStr) (timeChunkId : ℕ) : PathStr :=
  temp ++ [47] ++ [114, 101, 99, 111, 109, 98, 105, 110, 101, 100, 95, 103, 101, 111, 95] ++
    decimalCodes timeChunkId ++ [46, 110, 99]

/-- Python string `<`: lexicographic comparison of code point lists. -/
def strLtb : PathStr → PathStr → Bool
  | [], [] => false
  | [], _ :: _ => true
  | _ :: _, [] => false
  | a :: as, b :: bs => if a < b then true else if b < a then false else strLtb as bs

/-- One entry of the reducer input list: the triple
`(path, metadata, {"geo_chunk_id": …, "time_chunk_id": …})` returned by
`processing_task` (or by `recombine_geographic_chunks` in the TSM pipeline).
The metadata component is irrelevant to ordering and is left out. -/
structure ChunkEntry where
  path : PathStr
  geo_chunk_id : ℕ
  time_chunk_id : ℕ
deriving DecidableEq

/-- Insertion step of sorting by the path component (`key=lambda x: x[0]`).
All paths occurring in one reducer call are distinct, so stability is moot. -/
def insertByPath (x : ChunkEntry) : List ChunkEntry → List ChunkEntry
  | [] => [x]
  | y :: ys => if strLtb x.path y.path then x :: y :: ys else y :: insertByPath x ys

/-- The sort `sorted(chunks, key=lambda x: x[0])`: ascending by path string. -/
def sortByPath : List ChunkEntry → List ChunkEntry
  | [] => []
  | x :: xs => insertByPath x (sortByPath xs)

/-- The entry-ordering part of `recombine_time_chunks` (these lines are shared verbatim
by both pipelines): wrap a bare entry into a list, drop `None` entries, return `None`
when none remain, otherwise sort by the path component `x[0]`.  The resulting list is
the order in which the fold below it consumes the entries (the head seeds
`combined_data`, later entries are folded in turn). -/
def recombine_time_chunks_order (chunks : List (Option ChunkEntry)) : Option (List ChunkEntry) :=
  let cs := chunks.reduceOption
  if cs = [] then none else some (sortByPath cs)

/-- The entry-filtering part of `recombine_geographic_chunks` (both pipelines): wrap a
bare entry into a list, drop `None` entries, return `None` when none remain; the
remaining entries are stitched spatially in input order (no sort, no arithmetic). -/
def recombine_geographic_chunks_order (chunks : List (Option ChunkEntry)) :
    Option (List ChunkEntry) :=
  let cs := chunks.reduceOption
  if cs = [] then none else some cs

/-! ### TSM time reduction: `combine_intermediates`

The TSM `recombine_time_chunks` combines the already geo-reduced per-time-chunk
artifacts by direct sufficient-statistics combination rather than re-running the
processing method.  Pixel values are rationals; a raster maps pixel index to value. -/

/-- A pixel raster: pixel index to rational value. -/
abbrev Raster := ℕ → ℚ

/-- The sufficient-statistics dataset carried between TSM reduction steps, with the
data variables of the intermediate NetCDF artifacts: running totals for the turbidity
(`total_data` / `total_clean`), the derived normalized mean, elementwise extrema, and
the water-observation totals (`wofs` / `wofs_total_clean`). -/
structure TsmArtifact where
  total_data : Raster
  total_clean : Raster
  normalized_data : Raster
  min : Raster
  max : Raster
  wofs : Raster
  wofs_total_clean : Raster

/-- The helper `combine_intermediates(dataset, dataset_intermediate)` from the TSM
`recombine_time_chunks`: adds `total_data`, `total_clean`, `wofs` and
`wofs_total_clean` elementwise into the intermediate, recomputes `normalized_data`
as the quotient of the updated totals, and takes the elementwise min/max of the
`min`/`max` fields across the concatenated time axis.  The Python mutates
`dataset_intermediate` in place; here the updated intermediate is returned. -/
def combine_intermediates (dataset dataset_intermediate : TsmArtifact) : TsmArtifact where
  total_data := fun i => dataset_intermediate.total_data i + dataset.total_data i
  total_clean := fun i => dataset_intermediate.total_clean i + dataset.total_clean i
  normalized_data := fun i =>
    (dataset_intermediate.total_data i + dataset.total_data i) /
      (dataset_intermediate.total_clean i + dataset.total_clean i)
  min := fun i => Min.min (dataset_intermediate.min i) (dataset.min i)
  max := fun i => Max.max (dataset_intermediate.max i) (dataset.max i)
  wofs := fun i => dataset_intermediate.wofs i + dataset.wofs i
  wofs_total_clean := fun i =>
    dataset_intermediate.wofs_total_clean i + dataset.wofs_total_clean i

/-- The main fold of the TSM `recombine_time_chunks` loop: the first entry seeds
`combined_data`, then `combine_intermediates(data, combined_data)` is applied for
each later entry in order. -/
def combineFold (seed : TsmArtifact) (rest : List TsmArtifact) : TsmArtifact :=
  rest.foldl (fun combined data => combine_intermediates data combined) seed

/-- The TSM time reduction restricted to its numeric content: `none` on an empty
artifact list, otherwise the `combine_intermediates` fold seeded by the first entry. -/
def tsmTimeReduce : List TsmArtifact → Option TsmArtifact
  | [] => none
  | x :: xs => some (combineFold x xs)

/-- The single streaming mean+extrema reduction the spec compares against: running
sums of the four totals over all artifacts, elementwise extrema of `min`/`max`, and
the normalized mean derived as sum/count. -/
def streamSummary (x : TsmArtifact) (xs : List TsmArtifact) : TsmArtifact where
  total_data := fun i => x.total_data i + (xs.map (fun d => d.total_data i)).sum
  total_clean := fun i => x.total_clean i + (xs.map (fun d => d.total_clean i)).sum
  normalized_data := fun i =>
    (x.total_data i + (xs.map (fun d => d.total_data i)).sum) /
      (x.total_clean i + (xs.map (fun d => d.total_clean i)).sum)
  min := fun i => (xs.map (fun d => d.min i)).foldl Min.min (x.min i)
  max := fun i => (xs.map (fun d => d.max i)).foldl Max.max (x.max i)
  wofs := fun i => x.wofs i + (xs.map (fun d => d.wofs i)).sum
  wofs_total_clean := fun i =>
    x.wofs_total_clean i + (xs.map (fun d => d.wofs_total_clean i)).sum

/-! ### Progress accounting (`start_chunk_processing` and the per-stage increments)

Both pipelines estimate the work as
`num_scenes = len(geographic_chunks) * sum(len(time_chunk) for time_chunk in time_chunks)`
and derive rounded per-chunk progress weights with the Python `round`.  `G` is the
number of geographic chunks and `tcs` the list of time-chunk lengths. -/

/-- Python 3 `round` on a rational: round half to even. -/
def pyRound (q : ℚ) : ℤ :=
  let f := ⌊q⌋
  let r := q - f
  if r < 1 / 2 then f else if 1 / 2 < r then f + 1 else if 2 ∣ f then f else f + 1

/-- The estimate `num_scenes` in both `start_chunk_processing` tasks. -/
def num_scenes (G : ℕ) (tcs : List ℕ) : ℕ := G * tcs.sum

/-- The weight `num_scn_per_chk = round(num_scenes / (len(time_chunks) * len(geographic_chunks)))`
(identical formula in both pipelines). -/
def num_scn_per_chk (G : ℕ) (tcs : List ℕ) : ℤ :=
  pyRound ((num_scenes G tcs : ℚ) / ((tcs.length : ℚ) * (G : ℚ)))

/-- The fractional-cover `num_scn_per_chk_geo = round(num_scenes / len(geographic_chunks))`. -/
def num_scn_per_chk_geo (G : ℕ) (tcs : List ℕ) : ℤ :=
  pyRound ((num_scenes G tcs : ℚ) / (G : ℚ))

/-- Fractional cover: `task.total_scenes = 4 * num_scenes`. -/
def fcTotalScenes (G : ℕ) (tcs : List ℕ) : ℤ := 4 * num_scenes G tcs

/-- TSM: `task.total_scenes = 2 * num_scenes`. -/
def tsmTotalScenes (G : ℕ) (tcs : List ℕ) : ℤ := 2 * num_scenes G tcs

/-- Final `scenes_processed` of a fully successful fractional-cover run in which every
load returns data: `processing_task` adds 1 per scene (`num_scenes` in all);
`recombine_time_chunks` adds `num_scn_per_chk` once per entry, i.e. `len(tcs)` times
for each of the `G` geo chunks (the seeding entry included); `process_band_math` adds
its `num_scn_per_chk` argument, wired as `2 * num_scn_per_chk_geo`, once per geo
chunk. -/
def fcFinalScenesProcessed (G : ℕ) (tcs : List ℕ) : ℤ :=
  (num_scenes G tcs : ℤ) + ((G * tcs.length : ℕ) : ℤ) * num_scn_per_chk G tcs +
    (G : ℤ) * (2 * num_scn_per_chk_geo G tcs)

/-- Final `scenes_processed` of a fully successful TSM run: `processing_task` adds 1
per scene; `recombine_geographic_chunks` adds `num_scn_per_chk` once per entry, i.e.
`G` times for each of the `len(tcs)` time chunks. -/
def tsmFinalScenesProcessed (G : ℕ) (tcs : List ℕ) : ℤ :=
  (num_scenes G tcs : ℤ) + ((tcs.length * G : ℕ) : ℤ) * num_scn_per_chk G tcs

/-- An artifact is well formed when its `normalized_data` is the quotient of its two
turbidity totals, as `perform_timeseries_analysis` produces it. -/
def Wf (a : TsmArtifact) : Prop :=
  a.normalized_data = fun i => a.total_data i / a.total_clean i

/-- The all-zero artifact, used as a concrete evaluation point. -/
def zeroArtifact : TsmArtifact where
  total_data := fun _ => 0
  total_clean := fun _ => 0
  normalized_data := fun _ => 0
  min := fun _ => 0
  max := fun _ => 0
  wofs := fun _ => 0
  wofs_total_clean := fun _ => 0

/-! ### `processing_task` with its cancellation checkpoints

Both `processing_task`s iterate over the load ranges of one (geo chunk, time chunk)
pair.  The cooperative cancellation flag is polled by `check_cancel_task` at numbered
checkpoints: checkpoint 0 at task entry, then per iteration one checkpoint right
after the load and (when the load was usable) one more after the fold/analysis.
Loaded data and the pluggable processing method are abstracted: `method d acc` is
`task.get_processing_method()(data, …, intermediate_product=acc, …)` folding raw
data `d` into the optional running intermediate. -/

/-- The outcome of one load in the `processing_task` loop: the data cube returned no
dataset, a dataset without a `time` dimension, or usable data (abstracted to `ℕ`). -/
inductive LoadResult
  | missing
  | noTime
  | ok (d : ℕ)
deriving DecidableEq

/-- Observable side effects of a `processing_task` run, in chronological order. -/
inductive Ev
  /-- an atomic scene-counter increment (`scenes_processed` plus one, saved) -/
  | incrScenes
  /-- TSM per-scene animation write `animated_data.to_netcdf(path)` for a time index -/
  | writeAnimation (timeIndex : ℕ)
  /-- the final chunk artifact write (`export_xarray_to_netcdf` / `to_netcdf`) -/
  | writeArtifact
  /-- a `task.update_status` call (`processing_task` never performs one) -/
  | statusUpdate
deriving DecidableEq

/-- The observable result of one `processing_task` run: its event trace, whether it
returned through a cancellation checkpoint, and the value it returned (`none` both
for an empty chunk and for a cancelled run). -/
structure PRun where
  events : List Ev
  cancelled : Bool
  result : Option ℕ
deriving DecidableEq

/-- The loop of the fractional-cover `processing_task` over its load ranges,
carrying the next checkpoint number `k` and the running `iteration_data`.  Per
range: load, checkpoint; `None`/time-less data is skipped (`continue`); otherwise
the range is folded via the processing method, a further checkpoint is polled, and
the scene counter is incremented.  After the loop the accumulated intermediate is
written as the chunk artifact, or `None` is returned when every range was empty. -/
def fcProcLoop (method : ℕ → Option ℕ → ℕ) (cancel : ℕ → Bool) :
    List LoadResult → ℕ → Option ℕ → PRun
  | [], _, none => ⟨[], false, none⟩
  | [], _, some a => ⟨[Ev.writeArtifact], false, some a⟩
  | l :: ls, k, acc =>
      if cancel k then ⟨[], true, none⟩
      else
        match l with
        | .missing => fcProcLoop method cancel ls (k + 1) acc
        | .noTime => fcProcLoop method cancel ls (k + 1) acc
        | .ok d =>
            if cancel (k + 1) then ⟨[], true, none⟩
            else
              let r := fcProcLoop method cancel ls (k + 2) (some (method d acc))
              ⟨Ev.incrScenes :: r.events, r.cancelled, r.result⟩

/-- The fractional-cover `processing_task`: entry checkpoint, then the bail-out when
the task temp directory is gone, then the load loop starting at checkpoint 1. -/
def fc_processing_task (method : ℕ → Option ℕ → ℕ) (cancel : ℕ → Bool)
    (tempExists : Bool) (loads : List LoadResult) : PRun :=
  if cancel 0 then ⟨[], true, none⟩
  else if !tempExists then ⟨[], false, none⟩
  else fcProcLoop method cancel loads 1 none

/-- The loop of the TSM `processing_task`, additionally carrying the running time
index `t` (every range advances it, skipped or not) and writing a per-scene
animation artifact before the scene-counter increment when an animation was
requested.  A missing or time-less load is skipped by a single combined test. -/
def tsmProcLoop (method : ℕ → Option ℕ → ℕ) (cancel : ℕ → Bool) (animated : Bool) :
    List LoadResult → ℕ → ℕ → Option ℕ → PRun
  | [], _, _, none => ⟨[], false, none⟩
  | [], _, _, some a => ⟨[Ev.writeArtifact], false, some a⟩
  | l :: ls, k, t, acc =>
      if cancel k then ⟨[], true, none⟩
      else
        match l with
        | .missing => tsmProcLoop method cancel animated ls (k + 1) (t + 1) acc
        | .noTime => tsmProcLoop method cancel animated ls (k + 1) (t + 1) acc
        | .ok d =>
            if cancel (k + 1) then ⟨[], true, none⟩
            else
              let r := tsmProcLoop method cancel animated ls (k + 2) (t + 1)
                (some (method d acc))
              ⟨(if animated then [Ev.writeAnimation t] else []) ++ Ev.incrScenes :: r.events,
                r.cancelled, r.result⟩

/-- The TSM `processing_task`: entry checkpoint, temp-directory bail-out, then the
load loop starting at checkpoint 1 and time index `base_index`. -/
def tsm_processing_task (method : ℕ → Option ℕ → ℕ) (cancel : ℕ → Bool)
    (tempExists animated : Bool) (baseIndex : ℕ) (loads : List LoadResult) : PRun :=
  if cancel 0 then ⟨[], true, none⟩
  else if !tempExists then ⟨[], false, none⟩
  else tsmProcLoop method cancel animated loads 1 baseIndex none

/-- The all-false cancellation oracle: a run during which nobody cancels the task. -/
def noCancel : ℕ → Bool := fun _ => false

/-! ### Orchestrator wiring (`start_chunk_processing`) -/

/-- The reducer and output stages chained behind the parallel groups of the celery
canvas built by `start_chunk_processing`. -/
inductive Stage
  | timeReduce
  | geoReduce
  | bandMath
  | output
  | cleanUp
deriving DecidableEq

/-- One branch of the outer parallel group: an inner parallel group of
chunk-processing units, each identified by its `(geo_chunk_id, time_chunk_id)`
keyword arguments, chained into the reduction stages of the branch. -/
structure PipelineBranch where
  units : List (ℕ × ℕ)
  chain : List Stage
deriving DecidableEq

/-- A whole processing canvas: the outer parallel group of branches, chained into the
final stages. -/
structure Pipeline where
  branches : List PipelineBranch
  tail : List Stage
deriving DecidableEq

/-- The fractional-cover `start_chunk_processing` canvas: for each geo chunk index, a
group of `processing_task`s over all time chunk indices, chained into
`recombine_time_chunks` and then `process_band_math`; the outer group feeds
`recombine_geographic_chunks`, `create_output_products` and `task_clean_up`. -/
def fc_processing_pipeline (G T : ℕ) : Pipeline where
  branches := (List.range G).map fun geo_index =>
    { units := (List.range T).map fun time_index => (geo_index, time_index),
      chain := [Stage.timeReduce, Stage.bandMath] }
  tail := [Stage.geoReduce, Stage.output, Stage.cleanUp]

/-- The TSM `start_chunk_processing` canvas: for each time chunk index, a group of
`processing_task`s over all geo chunk indices, chained into
`recombine_geographic_chunks`; the outer group feeds `recombine_time_chunks`,
`create_output_products` and `task_clean_up`. -/
def tsm_processing_pipeline (G T : ℕ) : Pipeline where
  branches := (List.range T).map fun time_index =>
    { units := (List.range G).map fun geo_index => (geo_index, time_index),
      chain := [Stage.geoReduce] }
  tail := [Stage.timeReduce, Stage.output, Stage.cleanUp]

/-- Modelled from the words of the spec: the **time-first** topology — "for each geo chunk,
run all its time chunks in parallel, time-reduce, then band-math, producing one
artifact per geo chunk; finally geo-reduce all geo-chunk artifacts" — followed by the
output stage and the clean-up step. -/
def timeFirstTopology (G T : ℕ) : Pipeline where
  branches := (List.range G).map fun g =>
    { units := (List.range T).map fun t => (g, t),
      chain := [Stage.timeReduce, Stage.bandMath] }
  tail := [Stage.geoReduce, Stage.output, Stage.cleanUp]

/-- Modelled from the words of the spec: the **geo-first** topology — "for each time chunk,
run all its geo chunks in parallel, geo-reduce, producing one artifact per time
chunk; finally time-reduce all time-chunk artifacts" — followed by the output stage
and the clean-up step. -/
def geoFirstTopology (G T : ℕ) : Pipeline where
  branches := (List.range T).map fun t =>
    { units := (List.range G).map fun g => (g, t),
      chain := [Stage.geoReduce] }
  tail := [Stage.timeReduce, Stage.output, Stage.cleanUp]

/-! ### Validation, the stage guards, and the pixel drill

The task record store and `update_status` are external collaborators (the
`dc_algorithm` app).  Modelled from the spec: `update_status(code, message)` records
the status code and the human-readable message on the task record; the `complete`
flag is set separately by explicit `task.complete = True` assignments in the task
code. -/

/-- Task status codes. -/
inductive Status
  | wait
  | error
  | okDone
deriving DecidableEq

/-- The task-record fields these claims observe. -/
structure TaskState where
  status : Status
  message : String
  complete : Bool
deriving DecidableEq

def noAcquisitionsMsg : String := "There are no acquistions for this parameter set."

def medianPixelMsg : String :=
  "Median pixel operations are only supported for single year time periods."

def validatedMsg : String := "Validated parameters."

def measurementsMsg (satelliteName : String) : String :=
  "The provided Satellite model measurements aren\x27t valid for the product. " ++
    "Please check the measurements listed in the " ++ satelliteName ++ " model."

def singleAcquisitionMsg : String := "There is only a single acquisition for your parameter set."

/-- The inputs `validate_parameters` consults beyond the parameter dict itself: the
acquisition count for the requested extent and window, the compositor
`is_iterative()` flag, `(task.time_end - task.time_start).days`, the result of
`validate_measurements`, the satellite name, and the cancellation flag at the two
`check_cancel_task` checkpoints. -/
structure ValidationInput where
  acquisitions : ℕ
  iterative : Bool
  rangeDays : ℤ
  measurementsValid : Bool
  satelliteName : String
  cancel1 : Bool
  cancel2 : Bool
deriving DecidableEq

/-- The fractional-cover `validate_parameters`: entry cancellation checkpoint, the
no-acquisitions check, the median-pixel (non-iterative compositor over more than 367
days) check, a second cancellation checkpoint, the `WAIT` status update, and the
measurement validation.  Error paths set `complete = True` and record `ERROR` with
the corresponding message, returning `None` in place of the parameters. -/
def fc_validate_parameters {P : Type} (params : P) (st : TaskState) (inp : ValidationInput) :
    TaskState × Option P :=
  if inp.cancel1 then (st, none)
  else if inp.acquisitions < 1 then
    ({ status := Status.error, message := noAcquisitionsMsg, complete := true }, none)
  else if (!inp.iterative) && decide (367 < inp.rangeDays) then
    ({ status := Status.error, message := medianPixelMsg, complete := true }, none)
  else if inp.cancel2 then (st, none)
  else
    let st := { st with status := Status.wait, message := validatedMsg }
    if !inp.measurementsValid then
      ({ status := Status.error, message := measurementsMsg inp.satelliteName,
         complete := true }, none)
    else (st, some params)

/-- The TSM `validate_parameters`: identical to the fractional-cover one except that
it has no compositor/median-pixel restriction. -/
def tsm_validate_parameters {P : Type} (params : P) (st : TaskState) (inp : ValidationInput) :
    TaskState × Option P :=
  if inp.cancel1 then (st, none)
  else if inp.acquisitions < 1 then
    ({ status := Status.error, message := noAcquisitionsMsg, complete := true }, none)
  else if inp.cancel2 then (st, none)
  else
    let st := { st with status := Status.wait, message := validatedMsg }
    if !inp.measurementsValid then
      ({ status := Status.error, message := measurementsMsg inp.satelliteName,
         complete := true }, none)
    else (st, some params)

/-- The stage `perform_task_chunking` (both pipelines): `if parameters is None: return None`
before anything else; a non-`None` parameter set is chunked (abstracted to `chunk`). -/
def perform_task_chunking {P C : Type} (chunk : P → C) : Option P → Option C
  | none => none
  | some p => some (chunk p)

/-- The fractional-cover `start_chunk_processing`: `if chunk_details is None: return
None` before anything else; otherwise the processing canvas for the `G` geographic
and `T` time chunks of the chunk details is dispatched. -/
def fc_start_dispatch : Option (ℕ × ℕ) → Option Pipeline
  | none => none
  | some gt => some (fc_processing_pipeline gt.1 gt.2)

/-- The TSM `start_chunk_processing`: the same leading guard, dispatching the
geo-first canvas. -/
def tsm_start_dispatch : Option (ℕ × ℕ) → Option Pipeline
  | none => none
  | some gt => some (tsm_processing_pipeline gt.1 gt.2)

/-- The tail of `pixel_drill` (identical in both pipelines) once validation passed
and the pixel stack is loaded, as a function of the number of acquisitions found:
fewer than two dates records `ERROR` with the single-acquisition message and returns
`None` with no plot — with no `task.complete = True` on this path — while two or
more dates produce the plot (abstracted to a marker), mark the task complete and
record `OK`. -/
def pixel_drill_from_dates (st : TaskState) (numDates : ℕ) : TaskState × Option Unit :=
  if numDates < 2 then
    ({ st with status := Status.error, message := singleAcquisitionMsg }, none)
  else
    ({ status := Status.okDone, message := "Done processing pixel drill.", complete := true },
      some ())

/-! ### The TSM output stage (`create_output_products`)

Pixels here are possibly non-finite: `none` models a NaN/±inf float (e.g. the result
of a division by a zero count), which `nan_to_num(dataset, 0)` replaces by 0. -/

/-- A possibly non-finite pixel raster. -/
abbrev NRaster := ℕ → Option ℚ

/-- Subtraction on possibly non-finite values. -/
def osub : Option ℚ → Option ℚ → Option ℚ
  | some a, some b => some (a - b)
  | _, _ => none

/-- Division on possibly non-finite values; dividing by a zero count yields a
non-finite value (NaN or ±inf in the float world). -/
def odiv : Option ℚ → Option ℚ → Option ℚ
  | some a, some b => if b = 0 then none else some (a / b)
  | _, _ => none

/-- The final combined dataset opened by the TSM `create_output_products`, with
possibly non-finite pixels; `variability` is the slot for the derived field the
output stage adds. -/
structure TsmOutData where
  total_data : NRaster
  total_clean : NRaster
  normalized_data : NRaster
  min : NRaster
  max : NRaster
  wofs : NRaster
  wofs_total_clean : NRaster
  variability : NRaster

/-- The two derived fields added before export:
`dataset["variability"] = dataset["max"] - dataset["normalized_data"]` and
`dataset["wofs"] = dataset.wofs / dataset.wofs_total_clean` (the water fraction
overwrites the `wofs` total). -/
def tsm_output_derived (d : TsmOutData) : TsmOutData :=
  { d with
    variability := fun i => osub (d.max i) (d.normalized_data i)
    wofs := fun i => odiv (d.wofs i) (d.wofs_total_clean i) }

/-- An all-finite dataset, as left by `nan_to_num`. -/
structure TsmFinalData where
  total_data : Raster
  total_clean : Raster
  normalized_data : Raster
  min : Raster
  max : Raster
  wofs : Raster
  wofs_total_clean : Raster
  variability : Raster

/-- The call `nan_to_num(dataset, 0)`: every non-finite value in every data variable is
replaced by the fill value 0. -/
def nan_to_num0 (d : TsmOutData) : TsmFinalData where
  total_data := fun i => (d.total_data i).getD 0
  total_clean := fun i => (d.total_clean i).getD 0
  normalized_data := fun i => (d.normalized_data i).getD 0
  min := fun i => (d.min i).getD 0
  max := fun i => (d.max i).getD 0
  wofs := fun i => (d.wofs i).getD 0
  wofs_total_clean := fun i => (d.wofs_total_clean i).getD 0
  variability := fun i => (d.variability i).getD 0

/-- Modelled from the spec: `mask_water_quality` is an external utility
(`utils.data_cube_utilities.dc_water_quality`, not among these sources).  Per the
output stage of the spec — "applies a product-specific mask (e.g. suppress turbidity
estimates where water-confidence is low)" — and the in-source comment "need to wait
until last step to mask out wofs < 0.8", it suppresses (sets to the fill 0) the
turbidity-estimate variables at pixels whose water-confidence fraction `w` is below
0.8, leaving the water-fraction and clean-count variables in place. -/
def mask_water_quality (d : TsmFinalData) (w : Raster) : TsmFinalData :=
  { d with
    total_data := fun i => if w i < 4 / 5 then 0 else d.total_data i
    normalized_data := fun i => if w i < 4 / 5 then 0 else d.normalized_data i
    min := fun i => if w i < 4 / 5 then 0 else d.min i
    max := fun i => if w i < 4 / 5 then 0 else d.max i
    variability := fun i => if w i < 4 / 5 then 0 else d.variability i }

/-- The TSM output stage up to its writers, in source order: derive the two fields,
replace non-finite values by the fill 0, then apply the water-quality mask driven by
the (already filled) water fraction `dataset.wofs`.  Every product writer
(`to_netcdf`, `write_geotiff_from_xr`, the three `write_single_band_png_from_xr`
calls) receives this `dataset_masked`. -/
def tsm_create_output_dataset (d : TsmOutData) : TsmFinalData :=
  let filled := nan_to_num0 (tsm_output_derived d)
  mask_water_quality filled filled.wofs

end DataCubeUi

namespace DataCubeUi

/-- C1: the claim fails on the code.  `recombine_time_chunks` sorts its entries by the
path string `x[0]`, not by the `time_chunk_id` provenance field.  For geo chunk 0 of the
fractional-cover pipeline with time chunk ids 2 and 10, the path `"0_10.nc"` sorts
lexicographically before `"0_2.nc"`, so the fold order of time ids is `[10, 2]`, not the
ascending `[2, 10]` the claim requires; the TSM paths `"recombined_geo_10.nc"` and
`"recombined_geo_2.nc"` misorder the same way. -/
theorem recombine_time_chunks_sorts_by_path_not_by_time_id :
    (recombine_time_chunks_order
        [some ⟨fcChunkPath [] 0 2, 0, 2⟩, some ⟨fcChunkPath [] 0 10, 0, 10⟩]).map
        (fun l => l.map ChunkEntry.time_chunk_id) = some [10, 2] ∧
    (recombine_time_chunks_order
        [some ⟨tsmRecombinedGeoPath [] 2, 0, 2⟩, some ⟨tsmRecombinedGeoPath [] 10, 0, 10⟩]).map
        (fun l => l.map ChunkEntry.time_chunk_id) = some [10, 2] ∧
    ([10, 2] : List ℕ) ≠ [2, 10] := by
  refine ⟨?_, ?_, by decide⟩ <;> decide

/-! ### Lemmas on the `combine_intermediates` fold -/

theorem foldl_op_assoc {op : ℚ → ℚ → ℚ} (hop : ∀ a b c, op a (op b c) = op (op a b) c)
    (l : List ℚ) (a b : ℚ) : op a (l.foldl op b) = l.foldl op (op a b) := by
  induction l generalizing b with
  | nil => rfl
  | cons c cs ih => simpa [List.foldl] using (ih (op b c)).trans (by rw [hop])

theorem foldl_add_eq_sum (l : List ℚ) (c : ℚ) : l.foldl (· + ·) c = c + l.sum := by
  induction l generalizing c with
  | nil => simp
  | cons d ds ih => simp [List.foldl, ih, add_assoc]

theorem combineFold_field (f : TsmArtifact → Raster) (op : ℚ → ℚ → ℚ)
    (hf : ∀ d acc i, f (combine_intermediates d acc) i = op (f acc i) (f d i))
    (x : TsmArtifact) (xs : List TsmArtifact) (i : ℕ) :
    f (combineFold x xs) i = (xs.map (fun d => f d i)).foldl op (f x i) := by
  induction xs generalizing x with
  | nil => rfl
  | cons d ds ih =>
      have h : combineFold x (d :: ds) = combineFold (combine_intermediates d x) ds := rfl
      rw [h, ih, hf]
      rfl

theorem combineFold_total_data (x : TsmArtifact) (xs : List TsmArtifact) (i : ℕ) :
    (combineFold x xs).total_data i = x.total_data i + (xs.map (fun d => d.total_data i)).sum := by
  rw [combineFold_field TsmArtifact.total_data (· + ·) (fun _ _ _ => rfl), foldl_add_eq_sum]

theorem combineFold_total_clean (x : TsmArtifact) (xs : List TsmArtifact) (i : ℕ) :
    (combineFold x xs).total_clean i =
      x.total_clean i + (xs.map (fun d => d.total_clean i)).sum := by
  rw [combineFold_field TsmArtifact.total_clean (· + ·) (fun _ _ _ => rfl), foldl_add_eq_sum]

theorem combineFold_wofs (x : TsmArtifact) (xs : List TsmArtifact) (i : ℕ) :
    (combineFold x xs).wofs i = x.wofs i + (xs.map (fun d => d.wofs i)).sum := by
  rw [combineFold_field TsmArtifact.wofs (· + ·) (fun _ _ _ => rfl), foldl_add_eq_sum]

theorem combineFold_wofs_total_clean (x : TsmArtifact) (xs : List TsmArtifact) (i : ℕ) :
    (combineFold x xs).wofs_total_clean i =
      x.wofs_total_clean i + (xs.map (fun d => d.wofs_total_clean i)).sum := by
  rw [combineFold_field TsmArtifact.wofs_total_clean (· + ·) (fun _ _ _ => rfl), foldl_add_eq_sum]

theorem combineFold_min (x : TsmArtifact) (xs : List TsmArtifact) (i : ℕ) :
    (combineFold x xs).min i = (xs.map (fun d => d.min i)).foldl Min.min (x.min i) :=
  combineFold_field TsmArtifact.min Min.min (fun _ _ _ => rfl) x xs i

theorem combineFold_max (x : TsmArtifact) (xs : List TsmArtifact) (i : ℕ) :
    (combineFold x xs).max i = (xs.map (fun d => d.max i)).foldl Max.max (x.max i) :=
  combineFold_field TsmArtifact.max Max.max (fun _ _ _ => rfl) x xs i

/-- After at least one `combine_intermediates` step, the normalized mean is exactly the
quotient of the accumulated totals. -/
theorem combineFold_cons_normalized (x d : TsmArtifact) (ds : List TsmArtifact) (i : ℕ) :
    (combineFold x (d :: ds)).normalized_data i =
      (combineFold x (d :: ds)).total_data i / (combineFold x (d :: ds)).total_clean i := by
  induction ds generalizing x d with
  | nil => rfl
  | cons e es ih =>
      have h : combineFold x (d :: e :: es) = combineFold (combine_intermediates d x) (e :: es) :=
        rfl
      rw [h, ih]

/-- The fold of the TSM time reduction is exactly the single streaming reduction. -/
theorem combineFold_eq_streamSummary (x : TsmArtifact) (xs : List TsmArtifact) (hwf : Wf x) :
    combineFold x xs = streamSummary x xs := by
  cases xs with
  | nil =>
      cases x with
      | mk td tc nd mn mx wf wtc =>
          simp only [combineFold, List.foldl, streamSummary, List.map_nil, List.sum_nil,
            List.foldl_nil]
          have hnd : nd = fun i => td i / tc i := hwf
          simp [hnd]
  | cons d ds =>
      have hmk : ∀ a b : TsmArtifact,
          a.total_data = b.total_data → a.total_clean = b.total_clean →
          a.normalized_data = b.normalized_data → a.min = b.min → a.max = b.max →
          a.wofs = b.wofs → a.wofs_total_clean = b.wofs_total_clean → a = b := by
        intro a b h1 h2 h3 h4 h5 h6 h7
        cases a; cases b; simp_all
      refine hmk _ _ ?_ ?_ ?_ ?_ ?_ ?_ ?_
      · funext i; rw [combineFold_total_data]; rfl
      · funext i; rw [combineFold_total_clean]; rfl
      · funext i
        rw [combineFold_cons_normalized, combineFold_total_data, combineFold_total_clean]
        rfl
      · funext i; rw [combineFold_min]; rfl
      · funext i; rw [combineFold_max]; rfl
      · funext i; rw [combineFold_wofs]; rfl
      · funext i; rw [combineFold_wofs_total_clean]; rfl

/-- Folding an already-combined partial artifact into an accumulator is the same as
folding its underlying artifacts one by one. -/
theorem combine_intermediates_combineFold (acc y : TsmArtifact) (ys : List TsmArtifact) :
    combine_intermediates (combineFold y ys) acc = combineFold acc (y :: ys) := by
  have hmk : ∀ a b : TsmArtifact,
      a.total_data = b.total_data → a.total_clean = b.total_clean →
      a.normalized_data = b.normalized_data → a.min = b.min → a.max = b.max →
      a.wofs = b.wofs → a.wofs_total_clean = b.wofs_total_clean → a = b := by
    intro a b h1 h2 h3 h4 h5 h6 h7
    cases a; cases b; simp_all
  refine hmk _ _ ?_ ?_ ?_ ?_ ?_ ?_ ?_
  · funext i
    show acc.total_data i + (combineFold y ys).total_data i = (combineFold acc (y :: ys)).total_data i
    rw [combineFold_total_data, combineFold_total_data, List.map_cons, List.sum_cons]
  · funext i
    show acc.total_clean i + (combineFold y ys).total_clean i =
      (combineFold acc (y :: ys)).total_clean i
    rw [combineFold_total_clean, combineFold_total_clean, List.map_cons, List.sum_cons]
  · funext i
    show (acc.total_data i + (combineFold y ys).total_data i) /
        (acc.total_clean i + (combineFold y ys).total_clean i) =
      (combineFold acc (y :: ys)).normalized_data i
    rw [combineFold_cons_normalized, combineFold_total_data, combineFold_total_data,
      combineFold_total_clean, combineFold_total_clean, List.map_cons, List.sum_cons,
      List.map_cons, List.sum_cons]
  · funext i
    show Min.min (acc.min i) ((combineFold y ys).min i) = (combineFold acc (y :: ys)).min i
    rw [combineFold_min, combineFold_min, List.map_cons, List.foldl_cons]
    exact foldl_op_assoc (fun a b c => (min_assoc a b c).symm) _ _ _
  · funext i
    show Max.max (acc.max i) ((combineFold y ys).max i) = (combineFold acc (y :: ys)).max i
    rw [combineFold_max, combineFold_max, List.map_cons, List.foldl_cons]
    exact foldl_op_assoc (fun a b c => (max_assoc a b c).symm) _ _ _
  · funext i
    show acc.wofs i + (combineFold y ys).wofs i = (combineFold acc (y :: ys)).wofs i
    rw [combineFold_wofs, combineFold_wofs, List.map_cons, List.sum_cons]
  · funext i
    show acc.wofs_total_clean i + (combineFold y ys).wofs_total_clean i =
      (combineFold acc (y :: ys)).wofs_total_clean i
    rw [combineFold_wofs_total_clean, combineFold_wofs_total_clean, List.map_cons,
      List.sum_cons]

theorem combineFold_append (s : TsmArtifact) (l m : List TsmArtifact) :
    combineFold s (l ++ m) = combineFold (combineFold s l) m :=
  List.foldl_append _ _ _ _

/-- Folding the per-part combined artifacts equals folding the concatenation of all
underlying artifacts. -/
theorem combineFold_parts (s : TsmArtifact) (ps : List (List TsmArtifact))
    (h : ∀ p ∈ ps, p ≠ []) :
    combineFold s (ps.filterMap tsmTimeReduce) = combineFold s ps.flatten := by
  induction ps generalizing s with
  | nil => rfl
  | cons q qs ih =>
      obtain ⟨z, zs, rfl⟩ : ∃ z zs, q = z :: zs := by
        cases q with
        | nil => exact absurd rfl (h [] (List.mem_cons_self _ _))
        | cons z zs => exact ⟨z, zs, rfl⟩
      have h1 : ((z :: zs) :: qs).filterMap tsmTimeReduce =
          combineFold z zs :: qs.filterMap tsmTimeReduce := rfl
      have h2 : combineFold s (combineFold z zs :: qs.filterMap tsmTimeReduce) =
          combineFold (combine_intermediates (combineFold z zs) s)
            (qs.filterMap tsmTimeReduce) := rfl
      rw [h1, h2, combine_intermediates_combineFold,
        ih _ (fun p hp => h p (List.mem_cons_of_mem _ hp))]
      show combineFold (combineFold s (z :: zs)) qs.flatten = combineFold s (((z :: zs) :: qs).flatten)
      rw [List.flatten_cons, combineFold_append]

/-- C2, confirmed: combining TSM intermediates adds the four totals elementwise, takes
the elementwise extrema, and recomputes `normalized_data` as the quotient of the
accumulated totals; for every partition of the artifact collection into non-empty
parts, folding the per-part folds gives exactly the single streaming mean+extrema
reduction over all artifacts, which is also what the flat fold gives. -/
theorem tsm_combine_intermediates_exact (x : TsmArtifact) (xs : List TsmArtifact)
    (parts : List (List TsmArtifact)) (hwf : Wf x)
    (hjoin : parts.flatten = x :: xs) (hne : ∀ p ∈ parts, p ≠ []) :
    tsmTimeReduce (parts.filterMap tsmTimeReduce) = some (streamSummary x xs) ∧
    tsmTimeReduce (x :: xs) = some (streamSummary x xs) := by
  have hflat : tsmTimeReduce (x :: xs) = some (streamSummary x xs) := by
    show some (combineFold x xs) = some (streamSummary x xs)
    rw [combineFold_eq_streamSummary x xs hwf]
  refine ⟨?_, hflat⟩
  obtain ⟨q, qs, rfl⟩ : ∃ q qs, parts = q :: qs := by
    cases parts with
    | nil => simp at hjoin
    | cons q qs => exact ⟨q, qs, rfl⟩
  obtain ⟨z, zs, rfl⟩ : ∃ z zs, q = z :: zs := by
    cases q with
    | nil => exact absurd rfl (hne [] (List.mem_cons_self _ _))
    | cons z zs => exact ⟨z, zs, rfl⟩
  have h1 : ((z :: zs) :: qs).filterMap tsmTimeReduce =
      combineFold z zs :: qs.filterMap tsmTimeReduce := rfl
  have h2 : tsmTimeReduce (combineFold z zs :: qs.filterMap tsmTimeReduce) =
      some (combineFold (combineFold z zs) (qs.filterMap tsmTimeReduce)) := rfl
  have hne' : ∀ p ∈ qs, p ≠ [] := fun p hp => hne p (List.mem_cons_of_mem _ hp)
  rw [List.flatten_cons, List.cons_append] at hjoin
  injection hjoin with hzx hxs
  subst hzx
  subst hxs
  rw [h1, h2, combineFold_parts _ _ hne', ← combineFold_append]
  show some (combineFold z (zs ++ qs.flatten)) = some (streamSummary z (zs ++ qs.flatten))
  rw [combineFold_eq_streamSummary z _ hwf]

/-! ### Progress-counter theorems -/

theorem pyRound_intCast (m : ℤ) : pyRound (m : ℚ) = m := by
  simp only [pyRound, Int.floor_intCast, sub_self]
  norm_num

/-- C3 (amended): in both pipelines the final `scenes_processed` of a fully successful
run equals `total_scenes` whenever the total scene count is divisible by the number of
time chunks (in particular whenever all time chunks have equal length); the rounded
per-entry weight `num_scn_per_chk` is then exact.  In general the weights are rounded
estimates and the equality can fail (see the mismatch theorem). -/
theorem scenes_processed_exact_of_dvd (G : ℕ) (tcs : List ℕ)
    (hG : 0 < G) (hT : 0 < tcs.length) (hdvd : tcs.length ∣ tcs.sum) :
    fcFinalScenesProcessed G tcs = fcTotalScenes G tcs ∧
    tsmFinalScenesProcessed G tcs = tsmTotalScenes G tcs := by
  obtain ⟨k, hk⟩ := hdvd
  have hG0 : (G : ℚ) ≠ 0 := Nat.cast_ne_zero.mpr hG.ne'
  have hT0 : (tcs.length : ℚ) ≠ 0 := Nat.cast_ne_zero.mpr hT.ne'
  have hTG0 : (tcs.length : ℚ) * (G : ℚ) ≠ 0 := mul_ne_zero hT0 hG0
  have hq1 : ((num_scenes G tcs : ℕ) : ℚ) = (tcs.length : ℚ) * (G : ℚ) * (k : ℚ) := by
    unfold num_scenes
    push_cast [hk]
    ring
  have h1 : num_scn_per_chk G tcs = (k : ℤ) := by
    unfold num_scn_per_chk
    rw [hq1, mul_div_cancel_left₀ _ hTG0]
    have h := pyRound_intCast (k : ℤ)
    rwa [Int.cast_natCast] at h
  have hq2 : ((num_scenes G tcs : ℕ) : ℚ) = (G : ℚ) * ((tcs.sum : ℕ) : ℚ) := by
    unfold num_scenes
    push_cast
    ring
  have h2 : num_scn_per_chk_geo G tcs = (tcs.sum : ℤ) := by
    unfold num_scn_per_chk_geo
    rw [hq2, mul_div_cancel_left₀ _ hG0]
    have h := pyRound_intCast (tcs.sum : ℤ)
    rwa [Int.cast_natCast] at h
  have hS : (tcs.sum : ℤ) = (tcs.length : ℤ) * (k : ℤ) := by exact_mod_cast hk
  constructor
  · show (num_scenes G tcs : ℤ) + ((G * tcs.length : ℕ) : ℤ) * num_scn_per_chk G tcs +
      (G : ℤ) * (2 * num_scn_per_chk_geo G tcs) = 4 * num_scenes G tcs
    rw [h1, h2]
    unfold num_scenes
    simp only [Nat.cast_mul]
    rw [hS]
    ring
  · show (num_scenes G tcs : ℤ) + ((tcs.length * G : ℕ) : ℤ) * num_scn_per_chk G tcs =
      2 * num_scenes G tcs
    rw [h1]
    unfold num_scenes
    simp only [Nat.cast_mul]
    rw [hS]
    ring

/-- Witness for `scenes_processed_exact_of_dvd`: one geo chunk and two time chunks of
two scenes each. -/
theorem scenes_processed_exact_of_dvd_witness :
    fcFinalScenesProcessed 1 [2, 2] = fcTotalScenes 1 [2, 2] ∧
    tsmFinalScenesProcessed 1 [2, 2] = tsmTotalScenes 1 [2, 2] :=
  scenes_processed_exact_of_dvd 1 [2, 2] (by decide) (by decide) (by decide)

/-- C3: the claim as stated fails on the code.  With one geographic chunk and two time
chunks of lengths 2 and 1 (three scenes in all), `num_scn_per_chk = round(3/2) = 2`,
so a fully successful fractional-cover run ends with `scenes_processed = 13` against
`total_scenes = 12`, and a TSM run with `7` against `6`. -/
theorem scenes_processed_mismatch :
    fcFinalScenesProcessed 1 [2, 1] ≠ fcTotalScenes 1 [2, 1] ∧
    tsmFinalScenesProcessed 1 [2, 1] ≠ tsmTotalScenes 1 [2, 1] := by
  constructor <;>
    norm_num [fcFinalScenesProcessed, fcTotalScenes, tsmFinalScenesProcessed,
      tsmTotalScenes, num_scenes, num_scn_per_chk, num_scn_per_chk_geo, pyRound]

/-! ### Cancellation safety of the chunk-processing stages -/

theorem fcProcLoop_cancel_safe (method : ℕ → Option ℕ → ℕ) (cancel : ℕ → Bool)
    (loads : List LoadResult) (k : ℕ) (acc : Option ℕ)
    (hc : (fcProcLoop method cancel loads k acc).cancelled = true) :
    (fcProcLoop method cancel loads k acc).result = none ∧
    Ev.writeArtifact ∉ (fcProcLoop method cancel loads k acc).events ∧
    Ev.statusUpdate ∉ (fcProcLoop method cancel loads k acc).events ∧
    ∃ t, (fcProcLoop method cancel loads k acc).events ++ t =
      (fcProcLoop method noCancel loads k acc).events := by
  induction loads generalizing k acc with
  | nil => cases acc <;> simp [fcProcLoop] at hc
  | cons l ls ih =>
      by_cases h0 : cancel k = true
      · have he : fcProcLoop method cancel (l :: ls) k acc = ⟨[], true, none⟩ := by
          cases l <;> simp [fcProcLoop, h0]
        rw [he]
        exact ⟨rfl, by simp, by simp, ⟨_, List.nil_append _⟩⟩
      · cases l with
        | missing =>
            have he : fcProcLoop method cancel (.missing :: ls) k acc =
                fcProcLoop method cancel ls (k + 1) acc := by
              simp [fcProcLoop, h0]
            have hn : fcProcLoop method noCancel (.missing :: ls) k acc =
                fcProcLoop method noCancel ls (k + 1) acc := by
              simp [fcProcLoop, noCancel]
            rw [he] at hc ⊢
            rw [hn]
            exact ih (k + 1) acc hc
        | noTime =>
            have he : fcProcLoop method cancel (.noTime :: ls) k acc =
                fcProcLoop method cancel ls (k + 1) acc := by
              simp [fcProcLoop, h0]
            have hn : fcProcLoop method noCancel (.noTime :: ls) k acc =
                fcProcLoop method noCancel ls (k + 1) acc := by
              simp [fcProcLoop, noCancel]
            rw [he] at hc ⊢
            rw [hn]
            exact ih (k + 1) acc hc
        | ok d =>
            by_cases h1 : cancel (k + 1) = true
            · have he : fcProcLoop method cancel (.ok d :: ls) k acc = ⟨[], true, none⟩ := by
                simp [fcProcLoop, h0, h1]
              rw [he]
              exact ⟨rfl, by simp, by simp, ⟨_, List.nil_append _⟩⟩
            · have he : fcProcLoop method cancel (.ok d :: ls) k acc =
                  ⟨Ev.incrScenes ::
                      (fcProcLoop method cancel ls (k + 2) (some (method d acc))).events,
                    (fcProcLoop method cancel ls (k + 2) (some (method d acc))).cancelled,
                    (fcProcLoop method cancel ls (k + 2) (some (method d acc))).result⟩ := by
                simp [fcProcLoop, h0, h1]
              have hn : fcProcLoop method noCancel (.ok d :: ls) k acc =
                  ⟨Ev.incrScenes ::
                      (fcProcLoop method noCancel ls (k + 2) (some (method d acc))).events,
                    (fcProcLoop method noCancel ls (k + 2) (some (method d acc))).cancelled,
                    (fcProcLoop method noCancel ls (k + 2) (some (method d acc))).result⟩ := by
                simp [fcProcLoop, noCancel]
              rw [he] at hc ⊢
              rw [hn]
              obtain ⟨hr, hw, hs, t, hpre⟩ := ih (k + 2) (some (method d acc)) hc
              exact ⟨hr, by simp [hw], by simp [hs], ⟨t, by simpa using hpre⟩⟩

theorem tsmProcLoop_cancel_safe (method : ℕ → Option ℕ → ℕ) (cancel : ℕ → Bool)
    (animated : Bool) (loads : List LoadResult) (k t0 : ℕ) (acc : Option ℕ)
    (hc : (tsmProcLoop method cancel animated loads k t0 acc).cancelled = true) :
    (tsmProcLoop method cancel animated loads k t0 acc).result = none ∧
    Ev.writeArtifact ∉ (tsmProcLoop method cancel animated loads k t0 acc).events ∧
    Ev.statusUpdate ∉ (tsmProcLoop method cancel animated loads k t0 acc).events ∧
    ∃ t, (tsmProcLoop method cancel animated loads k t0 acc).events ++ t =
      (tsmProcLoop method noCancel animated loads k t0 acc).events := by
  induction loads generalizing k t0 acc with
  | nil => cases acc <;> simp [tsmProcLoop] at hc
  | cons l ls ih =>
      by_cases h0 : cancel k = true
      · have he : tsmProcLoop method cancel animated (l :: ls) k t0 acc = ⟨[], true, none⟩ := by
          cases l <;> simp [tsmProcLoop, h0]
        rw [he]
        exact ⟨rfl, by simp, by simp, ⟨_, List.nil_append _⟩⟩
      · cases l with
        | missing =>
            have he : tsmProcLoop method cancel animated (.missing :: ls) k t0 acc =
                tsmProcLoop method cancel animated ls (k + 1) (t0 + 1) acc := by
              simp [tsmProcLoop, h0]
            have hn : tsmProcLoop method noCancel animated (.missing :: ls) k t0 acc =
                tsmProcLoop method noCancel animated ls (k + 1) (t0 + 1) acc := by
              simp [tsmProcLoop, noCancel]
            rw [he] at hc ⊢
            rw [hn]
            exact ih (k + 1) (t0 + 1) acc hc
        | noTime =>
            have he : tsmProcLoop method cancel animated (.noTime :: ls) k t0 acc =
                tsmProcLoop method cancel animated ls (k + 1) (t0 + 1) acc := by
              simp [tsmProcLoop, h0]
            have hn : tsmProcLoop method noCancel animated (.noTime :: ls) k t0 acc =
                tsmProcLoop method noCancel animated ls (k + 1) (t0 + 1) acc := by
              simp [tsmProcLoop, noCancel]
            rw [he] at hc ⊢
            rw [hn]
            exact ih (k + 1) (t0 + 1) acc hc
        | ok d =>
            by_cases h1 : cancel (k + 1) = true
            · have he : tsmProcLoop method cancel animated (.ok d :: ls) k t0 acc =
                  ⟨[], true, none⟩ := by
                simp [tsmProcLoop, h0, h1]
              rw [he]
              exact ⟨rfl, by simp, by simp, ⟨_, List.nil_append _⟩⟩
            · have he : tsmProcLoop method cancel animated (.ok d :: ls) k t0 acc =
                  ⟨(if animated then [Ev.writeAnimation t0] else []) ++ Ev.incrScenes ::
                      (tsmProcLoop method cancel animated ls (k + 2) (t0 + 1)
                        (some (method d acc))).events,
                    (tsmProcLoop method cancel animated ls (k + 2) (t0 + 1)
                      (some (method d acc))).cancelled,
                    (tsmProcLoop method cancel animated ls (k + 2) (t0 + 1)
                      (some (method d acc))).result⟩ := by
                simp [tsmProcLoop, h0, h1]
              have hn : tsmProcLoop method noCancel animated (.ok d :: ls) k t0 acc =
                  ⟨(if animated then [Ev.writeAnimation t0] else []) ++ Ev.incrScenes ::
                      (tsmProcLoop method noCancel animated ls (k + 2) (t0 + 1)
                        (some (method d acc))).events,
                    (tsmProcLoop method noCancel animated ls (k + 2) (t0 + 1)
                      (some (method d acc))).cancelled,
                    (tsmProcLoop method noCancel animated ls (k + 2) (t0 + 1)
                      (some (method d acc))).result⟩ := by
                simp [tsmProcLoop, noCancel]
              rw [he] at hc ⊢
              rw [hn]
              obtain ⟨hr, hw, hs, t, hpre⟩ := ih (k + 2) (t0 + 1) (some (method d acc)) hc
              refine ⟨hr, ?_, ?_, ⟨t, ?_⟩⟩
              · cases animated <;> simp [hw]
              · cases animated <;> simp [hs]
              · cases animated <;> simpa using hpre

theorem reduceOption_eq_nil_of_all_none {α : Type} {l : List (Option α)}
    (h : ∀ c ∈ l, c = none) : l.reduceOption = [] := by
  induction l with
  | nil => rfl
  | cons c cs ih =>
      have hc : c = none := h c (List.mem_cons_self _ _)
      subst hc
      rw [List.reduceOption_cons_of_none]
      exact ih (fun x hx => h x (List.mem_cons_of_mem _ hx))

theorem fcProcLoop_all_empty (method : ℕ → Option ℕ → ℕ) (loads : List LoadResult) (k : ℕ)
    (h : ∀ l ∈ loads, l = LoadResult.missing ∨ l = LoadResult.noTime) :
    fcProcLoop method noCancel loads k none = ⟨[], false, none⟩ := by
  induction loads generalizing k with
  | nil => rfl
  | cons l ls ih =>
      rcases h l (List.mem_cons_self _ _) with hl | hl <;> subst hl <;>
        simpa [fcProcLoop, noCancel] using
          ih (k + 1) (fun x hx => h x (List.mem_cons_of_mem _ hx))

theorem tsmProcLoop_all_empty (method : ℕ → Option ℕ → ℕ) (animated : Bool)
    (loads : List LoadResult) (k t0 : ℕ)
    (h : ∀ l ∈ loads, l = LoadResult.missing ∨ l = LoadResult.noTime) :
    tsmProcLoop method noCancel animated loads k t0 none = ⟨[], false, none⟩ := by
  induction loads generalizing k t0 with
  | nil => rfl
  | cons l ls ih =>
      rcases h l (List.mem_cons_self _ _) with hl | hl <;> subst hl <;>
        simpa [tsmProcLoop, noCancel] using
          ih (k + 1) (t0 + 1) (fun x hx => h x (List.mem_cons_of_mem _ hx))

/-- C4, confirmed: when every load of a chunk-processing invocation returns no data or
lacks a temporal dimension, `processing_task` (either pipeline) skips all ranges and
returns `None` with an empty event trace — no artifact write, no status update, no
error, no scene counted; and the reducers `recombine_time_chunks` and
`recombine_geographic_chunks` drop `None` entries and return `None` when every entry
is `None`, an ordinary value rather than a failure. -/
theorem empty_chunks_skipped_without_error (method : ℕ → Option ℕ → ℕ)
    (animated : Bool) (baseIndex : ℕ) (loads : List LoadResult)
    (cs : List (Option ChunkEntry))
    (hl : ∀ l ∈ loads, l = LoadResult.missing ∨ l = LoadResult.noTime)
    (hcs : ∀ c ∈ cs, c = none) :
    fc_processing_task method noCancel true loads = ⟨[], false, none⟩ ∧
    tsm_processing_task method noCancel true animated baseIndex loads = ⟨[], false, none⟩ ∧
    recombine_time_chunks_order cs = none ∧
    recombine_geographic_chunks_order cs = none := by
  refine ⟨?_, ?_, ?_, ?_⟩
  · show (if noCancel 0 then _ else if !true then _ else fcProcLoop method noCancel loads 1 none)
      = _
    simpa [noCancel] using fcProcLoop_all_empty method loads 1 hl
  · show (if noCancel 0 then _ else
      if !true then _ else tsmProcLoop method noCancel animated loads 1 baseIndex none) = _
    simpa [noCancel] using tsmProcLoop_all_empty method animated loads 1 baseIndex hl
  · simp [recombine_time_chunks_order, reduceOption_eq_nil_of_all_none hcs]
  · simp [recombine_geographic_chunks_order, reduceOption_eq_nil_of_all_none hcs]

/-- Witness for `empty_chunks_skipped_without_error`: one missing load, one time-less
load, and a reducer input of two `None` entries. -/
theorem empty_chunks_skipped_without_error_witness :
    fc_processing_task (fun d _ => d) noCancel true [.missing, .noTime] = ⟨[], false, none⟩ ∧
    tsm_processing_task (fun d _ => d) noCancel true false 0 [.missing, .noTime] =
      ⟨[], false, none⟩ ∧
    recombine_time_chunks_order [none, none] = none ∧
    recombine_geographic_chunks_order [none, none] = none :=
  empty_chunks_skipped_without_error (fun d _ => d) false 0 [.missing, .noTime] [none, none]
    (by decide) (by decide)

/-- C8, confirmed for the two chunk-processing stage entry points the sources of the claim
name: whenever a `processing_task` run of either pipeline observes the cancellation
flag at one of its checkpoints, it returns `None` with no chunk artifact written and
no task status update performed, and its event trace is a prefix of the trace of the
same run without cancellation — whatever was already written at the observation
point (scene-counter increments, TSM per-scene animation artifacts, artifacts of
completed sibling units) is left in place and nothing further happens. -/
theorem processing_task_cancel_safe (method : ℕ → Option ℕ → ℕ) (cancel : ℕ → Bool)
    (tempExists animated : Bool) (baseIndex : ℕ) (loads : List LoadResult) :
    ((fc_processing_task method cancel tempExists loads).cancelled = true →
      (fc_processing_task method cancel tempExists loads).result = none ∧
      Ev.writeArtifact ∉ (fc_processing_task method cancel tempExists loads).events ∧
      Ev.statusUpdate ∉ (fc_processing_task method cancel tempExists loads).events ∧
      ∃ t, (fc_processing_task method cancel tempExists loads).events ++ t =
        (fc_processing_task method noCancel tempExists loads).events) ∧
    ((tsm_processing_task method cancel tempExists animated baseIndex loads).cancelled = true →
      (tsm_processing_task method cancel tempExists animated baseIndex loads).result = none ∧
      Ev.writeArtifact ∉
        (tsm_processing_task method cancel tempExists animated baseIndex loads).events ∧
      Ev.statusUpdate ∉
        (tsm_processing_task method cancel tempExists animated baseIndex loads).events ∧
      ∃ t, (tsm_processing_task method cancel tempExists animated baseIndex loads).events ++ t =
        (tsm_processing_task method noCancel tempExists animated baseIndex loads).events) := by
  constructor
  · intro hc
    by_cases h0 : cancel 0 = true
    · have he : fc_processing_task method cancel tempExists loads = ⟨[], true, none⟩ := by
        simp [fc_processing_task, h0]
      rw [he]
      exact ⟨rfl, by simp, by simp, ⟨_, List.nil_append _⟩⟩
    · cases tempExists with
      | false =>
          have he : fc_processing_task method cancel false loads = ⟨[], false, none⟩ := by
            simp [fc_processing_task, h0]
          rw [he] at hc
          simp at hc
      | true =>
          have he : fc_processing_task method cancel true loads =
              fcProcLoop method cancel loads 1 none := by
            simp [fc_processing_task, h0]
          have hn : fc_processing_task method noCancel true loads =
              fcProcLoop method noCancel loads 1 none := by
            simp [fc_processing_task, noCancel]
          rw [he] at hc ⊢
          rw [hn]
          exact fcProcLoop_cancel_safe method cancel loads 1 none hc
  · intro hc
    by_cases h0 : cancel 0 = true
    · have he : tsm_processing_task method cancel tempExists animated baseIndex loads =
          ⟨[], true, none⟩ := by
        simp [tsm_processing_task, h0]
      rw [he]
      exact ⟨rfl, by simp, by simp, ⟨_, List.nil_append _⟩⟩
    · cases tempExists with
      | false =>
          have he : tsm_processing_task method cancel false animated baseIndex loads =
              ⟨[], false, none⟩ := by
            simp [tsm_processing_task, h0]
          rw [he] at hc
          simp at hc
      | true =>
          have he : tsm_processing_task method cancel true animated baseIndex loads =
              tsmProcLoop method cancel animated loads 1 baseIndex none := by
            simp [tsm_processing_task, h0]
          have hn : tsm_processing_task method noCancel true animated baseIndex loads =
              tsmProcLoop method noCancel animated loads 1 baseIndex none := by
            simp [tsm_processing_task, noCancel]
          rw [he] at hc ⊢
          rw [hn]
          exact tsmProcLoop_cancel_safe method cancel animated loads 1 baseIndex none hc

/-- Witness for `processing_task_cancel_safe`: two usable loads with cancellation
first observed at checkpoint 3, i.e. after the first scene was folded and counted. -/
theorem processing_task_cancel_safe_witness :
    ((fc_processing_task (fun d _ => d) (fun k => decide (3 ≤ k)) true
        [.ok 5, .ok 7]).result = none ∧
      Ev.writeArtifact ∉ (fc_processing_task (fun d _ => d) (fun k => decide (3 ≤ k)) true
        [.ok 5, .ok 7]).events ∧
      Ev.statusUpdate ∉ (fc_processing_task (fun d _ => d) (fun k => decide (3 ≤ k)) true
        [.ok 5, .ok 7]).events ∧
      ∃ t, (fc_processing_task (fun d _ => d) (fun k => decide (3 ≤ k)) true
          [.ok 5, .ok 7]).events ++ t =
        (fc_processing_task (fun d _ => d) noCancel true [.ok 5, .ok 7]).events) ∧
    ((tsm_processing_task (fun d _ => d) (fun k => decide (3 ≤ k)) true true 0
        [.ok 5, .ok 7]).result = none ∧
      Ev.writeArtifact ∉ (tsm_processing_task (fun d _ => d) (fun k => decide (3 ≤ k)) true true 0
        [.ok 5, .ok 7]).events ∧
      Ev.statusUpdate ∉ (tsm_processing_task (fun d _ => d) (fun k => decide (3 ≤ k)) true true 0
        [.ok 5, .ok 7]).events ∧
      ∃ t, (tsm_processing_task (fun d _ => d) (fun k => decide (3 ≤ k)) true true 0
          [.ok 5, .ok 7]).events ++ t =
        (tsm_processing_task (fun d _ => d) noCancel true true 0 [.ok 5, .ok 7]).events) :=
  ⟨(processing_task_cancel_safe (fun d _ => d) (fun k => decide (3 ≤ k)) true true 0
      [.ok 5, .ok 7]).1 (by decide),
    (processing_task_cancel_safe (fun d _ => d) (fun k => decide (3 ≤ k)) true true 0
      [.ok 5, .ok 7]).2 (by decide)⟩

/-! ### Orchestrator topology -/

/-- C5, confirmed: the fractional-cover canvas is exactly the time-first
topology (per geo chunk: all its time chunks in parallel, then time-reduce, then
band math; geo-reduce and the output stage last, one artifact per geo chunk), and
the TSM canvas is exactly the geo-first topology of the spec (per time chunk: all geo
chunks in parallel, then geo-reduce; time-reduce and the output stage last, one
artifact per time chunk); branch counts and per-branch unit counts match the chunk
counts. -/
theorem pipeline_topologies (G T : ℕ) :
    fc_processing_pipeline G T = timeFirstTopology G T ∧
    tsm_processing_pipeline G T = geoFirstTopology G T ∧
    (fc_processing_pipeline G T).branches.length = G ∧
    (tsm_processing_pipeline G T).branches.length = T ∧
    (∀ b ∈ (fc_processing_pipeline G T).branches,
      b.units.length = T ∧ b.chain = [Stage.timeReduce, Stage.bandMath]) ∧
    (∀ b ∈ (tsm_processing_pipeline G T).branches,
      b.units.length = G ∧ b.chain = [Stage.geoReduce]) ∧
    (fc_processing_pipeline G T).tail = [Stage.geoReduce, Stage.output, Stage.cleanUp] ∧
    (tsm_processing_pipeline G T).tail = [Stage.timeReduce, Stage.output, Stage.cleanUp] := by
  refine ⟨rfl, rfl, by simp [fc_processing_pipeline], by simp [tsm_processing_pipeline],
    ?_, ?_, rfl, rfl⟩
  · intro b hb
    simp only [fc_processing_pipeline, List.mem_map, List.mem_range] at hb
    obtain ⟨g, _, rfl⟩ := hb
    exact ⟨by simp, rfl⟩
  · intro b hb
    simp only [tsm_processing_pipeline, List.mem_map, List.mem_range] at hb
    obtain ⟨t, _, rfl⟩ := hb
    exact ⟨by simp, rfl⟩

/-! ### Validation and early-exit theorems -/

/-- C6, confirmed: when validation finds zero acquisitions, `validate_parameters` of
either pipeline marks the task complete, records status `ERROR` with the
human-readable no-acquisitions message, and returns `None`; the `None` then makes
`perform_task_chunking` and `start_chunk_processing` return immediately, so no
chunk-processing canvas is dispatched. -/
theorem zero_acquisitions_halts_pipeline {P C : Type} (params : P) (chunk : P → C)
    (st : TaskState) (inp : ValidationInput)
    (hc : inp.cancel1 = false) (ha : inp.acquisitions = 0) :
    fc_validate_parameters params st inp =
      ({ status := Status.error, message := noAcquisitionsMsg, complete := true }, none) ∧
    tsm_validate_parameters params st inp =
      ({ status := Status.error, message := noAcquisitionsMsg, complete := true }, none) ∧
    perform_task_chunking chunk (none : Option P) = none ∧
    fc_start_dispatch none = none ∧
    tsm_start_dispatch none = none := by
  refine ⟨?_, ?_, rfl, rfl, rfl⟩ <;> simp [fc_validate_parameters, tsm_validate_parameters,
    hc, ha]

/-- Witness for `zero_acquisitions_halts_pipeline`: a fresh waiting task with zero
acquisitions. -/
theorem zero_acquisitions_halts_pipeline_witness :
    fc_validate_parameters () ⟨Status.wait, "", false⟩ ⟨0, true, 10, true, "LANDSAT_8", false, false⟩ =
      ({ status := Status.error, message := noAcquisitionsMsg, complete := true }, none) ∧
    tsm_validate_parameters () ⟨Status.wait, "", false⟩ ⟨0, true, 10, true, "LANDSAT_8", false, false⟩ =
      ({ status := Status.error, message := noAcquisitionsMsg, complete := true }, none) ∧
    perform_task_chunking (fun p : Unit => p) none = none ∧
    fc_start_dispatch none = none ∧
    tsm_start_dispatch none = none :=
  zero_acquisitions_halts_pipeline () (fun p => p) ⟨Status.wait, "", false⟩
    ⟨0, true, 10, true, "LANDSAT_8", false, false⟩ rfl rfl

/-- C10, confirmed: with at least one acquisition, a non-iterative (median pixel)
compositor and a requested range longer than 367 days, the fractional-cover
validation marks the task complete, records `ERROR` with the median-pixel message
and returns `None`; the TSM validation, which has no such restriction, succeeds on
the same inputs and returns the parameters with a `WAIT` status. -/
theorem median_pixel_restriction_fc_only {P : Type} (params : P) (st : TaskState)
    (inp : ValidationInput) (hc1 : inp.cancel1 = false) (hc2 : inp.cancel2 = false)
    (ha : 1 ≤ inp.acquisitions) (hit : inp.iterative = false) (hd : 367 < inp.rangeDays)
    (hm : inp.measurementsValid = true) :
    fc_validate_parameters params st inp =
      ({ status := Status.error, message := medianPixelMsg, complete := true }, none) ∧
    tsm_validate_parameters params st inp =
      ({ st with status := Status.wait, message := validatedMsg }, some params) := by
  have ha' : ¬ inp.acquisitions < 1 := by omega
  constructor
  · simp [fc_validate_parameters, hc1, hc2, ha', hit, hd]
  · simp [tsm_validate_parameters, hc1, hc2, ha', hm]

/-- Witness for `median_pixel_restriction_fc_only`: one acquisition, a median-pixel
compositor, and a 368-day range. -/
theorem median_pixel_restriction_fc_only_witness :
    fc_validate_parameters () ⟨Status.wait, "", false⟩
        ⟨1, false, 368, true, "LANDSAT_8", false, false⟩ =
      ({ status := Status.error, message := medianPixelMsg, complete := true }, none) ∧
    tsm_validate_parameters () ⟨Status.wait, "", false⟩
        ⟨1, false, 368, true, "LANDSAT_8", false, false⟩ =
      (⟨Status.wait, validatedMsg, false⟩, some ()) :=
  median_pixel_restriction_fc_only () ⟨Status.wait, "", false⟩
    ⟨1, false, 368, true, "LANDSAT_8", false, false⟩ rfl rfl (by decide) rfl (by decide) rfl

/-! ### Pixel drill -/

/-- C9: the claim fails on the code.  On a fresh incomplete task whose pixel stack
holds a single acquisition, `pixel_drill` records `ERROR` with the human-readable
single-acquisition message and returns `None` without producing a plot, but the
`complete` flag stays `false`: unlike `validate_parameters`, `pixel_drill` has no
`task.complete = True` before this early return, so the claimed "marks the task
complete" is false. -/
theorem pixel_drill_single_acquisition_not_marked_complete :
    (pixel_drill_from_dates ⟨Status.wait, "", false⟩ 1).1.complete = false ∧
    (pixel_drill_from_dates ⟨Status.wait, "", false⟩ 1).1.status = Status.error ∧
    (pixel_drill_from_dates ⟨Status.wait, "", false⟩ 1).1.message = singleAcquisitionMsg ∧
    (pixel_drill_from_dates ⟨Status.wait, "", false⟩ 1).2 = none :=
  ⟨rfl, rfl, rfl, rfl⟩

/-- C9 (amended): for every pixel-drill query whose loaded data contains fewer than
two acquisitions (in either pipeline — the code is identical), the operation records
status `ERROR` with the human-readable single-acquisition message and returns `None`
without producing a plot; the `complete` flag of the task is left unchanged, i.e. the
task is *not* marked complete on this path. -/
theorem pixel_drill_single_acquisition (st : TaskState) (n : ℕ) (h : n < 2) :
    pixel_drill_from_dates st n =
      ({ st with status := Status.error, message := singleAcquisitionMsg }, none) ∧
    (pixel_drill_from_dates st n).1.complete = st.complete := by
  constructor <;> simp [pixel_drill_from_dates, h]

/-- Witness for `pixel_drill_single_acquisition`: a single acquisition on a fresh
waiting task. -/
theorem pixel_drill_single_acquisition_witness :
    (pixel_drill_from_dates ⟨Status.wait, "", false⟩ 1 =
      (⟨Status.error, singleAcquisitionMsg, false⟩, none)) ∧
    (pixel_drill_from_dates ⟨Status.wait, "", false⟩ 1).1.complete = false :=
  pixel_drill_single_acquisition ⟨Status.wait, "", false⟩ 1 (by decide)

/-! ### TSM output stage -/

/-- C7, confirmed: in the TSM output stage, before any product is written the
dataset gains `variability = max − normalized_data` and the water fraction
`wofs / wofs_total_clean` (overwriting `wofs`), then every non-finite value is
replaced by the fill value 0, and finally the water-confidence mask suppresses the
turbidity estimates at pixels whose (filled) water fraction is below 0.8.  Stated
end to end per pixel on the `dataset_masked` handed to every product writer. -/
theorem tsm_output_stage_fields (d : TsmOutData) (i : ℕ) :
    (tsm_create_output_dataset d).wofs i = (odiv (d.wofs i) (d.wofs_total_clean i)).getD 0 ∧
    (tsm_create_output_dataset d).variability i =
      (if (odiv (d.wofs i) (d.wofs_total_clean i)).getD 0 < 4 / 5 then 0
       else (osub (d.max i) (d.normalized_data i)).getD 0) ∧
    (tsm_create_output_dataset d).normalized_data i =
      (if (odiv (d.wofs i) (d.wofs_total_clean i)).getD 0 < 4 / 5 then 0
       else (d.normalized_data i).getD 0) ∧
    (tsm_create_output_dataset d).total_clean i = (d.total_clean i).getD 0 :=
  ⟨rfl, rfl, rfl, rfl⟩

/-- Concrete witness for `tsm_combine_intermediates_exact`: the partition
`[[0-artifact, 0-artifact]]` of the two-element collection of all-zero artifacts. -/
theorem tsm_combine_intermediates_exact_witness :
    tsmTimeReduce ([[zeroArtifact, zeroArtifact]].filterMap tsmTimeReduce) =
      some (streamSummary zeroArtifact [zeroArtifact]) ∧
    tsmTimeReduce [zeroArtifact, zeroArtifact] =
      some (streamSummary zeroArtifact [zeroArtifact]) :=
  tsm_combine_intermediates_exact zeroArtifact [zeroArtifact] [[zeroArtifact, zeroArtifact]]
    (by funext i; simp [zeroArtifact])
    (by simp)
    (by intro p hp; rw [List.mem_singleton] at hp; subst hp; simp)

end DataCubeUi
